import Mathlib

/-!
Verification of the Rooster change-aware sync pipeline (shallow embedding).

The definitions below are translated from the repository's Python sources:
`scripts/excel_parser.py`, `scripts/ics_generator.py`,
`scripts/change_detector.py` and `scripts/rooster_sync.py`.

Modelling conventions:
* machine integers and hashing are modelled over `Nat` with explicit `% 2^32`
  where the MD5 algorithm wraps;
* strings are Lean `String`s; the byte encoding used for hashing models
  UTF-8 restricted to ASCII inputs (`Char.toNat` agrees with UTF-8 there);
* the filesystem is an explicit `World` record threaded through the
  orchestrator; wall-clock time is an explicit `Nat` parameter whose
  rendered form models the formatted timestamp the code embeds;
* the third-party `icalendar` serializer is modelled structurally: the
  calendar value records exactly the properties, timezone block and events
  the code adds, in order, and `renderCalendar` is a deterministic
  injective-by-construction textual rendering of that structure.
-/

set_option maxHeartbeats 2000000

set_option maxRecDepth 100000

/-- Association-list lookup mirroring Python `dict` lookup (`d.get(k)` /
`d[k]`): first binding of the key wins. -/
def lookupA {α : Type} : List (String × α) → String → Option α
  | [], _ => none
  | (k, v) :: l, k' => if k' = k then some v else lookupA l k'

/-- Association-list insertion mirroring Python `d[k] = v`: replaces the
value in place when the key is present, otherwise appends, preserving
insertion order as Python dicts do. -/
def insertA {α : Type} : List (String × α) → String → α → List (String × α)
  | [], k, v => [(k, v)]
  | (k0, v0) :: l, k, v =>
      if k = k0 then (k0, v) :: l else (k0, v0) :: insertA l k v

/-- Association-list removal mirroring Python `d.pop(k, None)`. -/
def eraseA {α : Type} : List (String × α) → String → List (String × α)
  | [], _ => []
  | (k0, v0) :: l, k => if k = k0 then l else (k0, v0) :: eraseA l k

/-- Keys of an association list, in order. -/
def keysA {α : Type} (l : List (String × α)) : List String := l.map Prod.fst

/-- Two-digit zero-padded decimal rendering (`%02d`). -/
def pad2 (n : Nat) : String := if n < 10 then "0" ++ toString n else toString n

/-- Four-digit zero-padded decimal rendering (`%04d`), as `strftime` uses
for `%Y` in the relevant year range. -/
def pad4 (n : Nat) : String :=
  if n < 10 then "000" ++ toString n
  else if n < 100 then "00" ++ toString n
  else if n < 1000 then "0" ++ toString n
  else toString n

/-! ## MD5 (`hashlib.md5`)

The source uses `hashlib.md5(...).hexdigest()` both for event identifiers
(`ICSGenerator._generate_uid`) and for content hashes
(`ChangeDetector._content_hash` / `_file_hash`).  This is a complete
executable MD5 over byte lists. -/

/-- Addition modulo `2^32`. -/
def add32 (a b : Nat) : Nat := (a + b) % 4294967296

/-- 32-bit left rotation. -/
def rotl32 (x n : Nat) : Nat :=
  (((x % 4294967296) <<< n) ||| ((x % 4294967296) >>> (32 - n))) % 4294967296

/-- The 64 MD5 sine-derived constants. -/
def md5K : List Nat :=
  [0xd76aa478, 0xe8c7b756, 0x242070db, 0xc1bdceee,
   0xf57c0faf, 0x4787c62a, 0xa8304613, 0xfd469501,
   0x698098d8, 0x8b44f7af, 0xffff5bb1, 0x895cd7be,
   0x6b901122, 0xfd987193, 0xa679438e, 0x49b40821,
   0xf61e2562, 0xc040b340, 0x265e5a51, 0xe9b6c7aa,
   0xd62f105d, 0x02441453, 0xd8a1e681, 0xe7d3fbc8,
   0x21e1cde6, 0xc33707d6, 0xf4d50d87, 0x455a14ed,
   0xa9e3e905, 0xfcefa3f8, 0x676f02d9, 0x8d2a4c8a,
   0xfffa3942, 0x8771f681, 0x6d9d6122, 0xfde5380c,
   0xa4beea44, 0x4bdecfa9, 0xf6bb4b60, 0xbebfbc70,
   0x289b7ec6, 0xeaa127fa, 0xd4ef3085, 0x04881d05,
   0xd9d4d039, 0xe6db99e5, 0x1fa27cf8, 0xc4ac5665,
   0xf4292244, 0x432aff97, 0xab9423a7, 0xfc93a039,
   0x655b59c3, 0x8f0ccc92, 0xffeff47d, 0x85845dd1,
   0x6fa87e4f, 0xfe2ce6e0, 0xa3014314, 0x4e0811a1,
   0xf7537e82, 0xbd3af235, 0x2ad7d2bb, 0xeb86d391]

/-- The 64 MD5 per-step rotation amounts. -/
def md5S : List Nat :=
  [7, 12, 17, 22, 7, 12, 17, 22, 7, 12, 17, 22, 7, 12, 17, 22,
   5, 9, 14, 20, 5, 9, 14, 20, 5, 9, 14, 20, 5, 9, 14, 20,
   4, 11, 16, 23, 4, 11, 16, 23, 4, 11, 16, 23, 4, 11, 16, 23,
   6, 10, 15, 21, 6, 10, 15, 21, 6, 10, 15, 21, 6, 10, 15, 21]

/-- MD5 round function (F, G, H, I selected by step index). -/
def md5F (i b c d : Nat) : Nat :=
  if i < 16 then (b &&& c) ||| ((b ^^^ 0xffffffff) &&& d)
  else if i < 32 then (d &&& b) ||| ((d ^^^ 0xffffffff) &&& c)
  else if i < 48 then b ^^^ c ^^^ d
  else c ^^^ (b ||| (d ^^^ 0xffffffff))

/-- MD5 message-word index for a step. -/
def md5G (i : Nat) : Nat :=
  if i < 16 then i
  else if i < 32 then (5 * i + 1) % 16
  else if i < 48 then (3 * i + 5) % 16
  else (7 * i) % 16

/-- Little-endian byte rendering of `n` on `count` bytes. -/
def leBytes (n count : Nat) : List Nat :=
  (List.range count).map fun i => (n >>> (8 * i)) % 256

/-- Decode a 64-byte block into 16 little-endian 32-bit words. -/
def md5Words (block : List Nat) : List Nat :=
  (List.range 16).map fun j =>
    block.getD (4 * j) 0 + 256 * block.getD (4 * j + 1) 0 +
    65536 * block.getD (4 * j + 2) 0 + 16777216 * block.getD (4 * j + 3) 0

/-- One MD5 step on the running `(a, b, c, d)` state. -/
def md5Step (w : List Nat) (st : Nat × Nat × Nat × Nat) (i : Nat) :
    Nat × Nat × Nat × Nat :=
  let a := st.1
  let b := st.2.1
  let c := st.2.2.1
  let d := st.2.2.2
  let f := md5F i b c d
  let t := add32 (add32 (add32 a f) (md5K.getD i 0)) (w.getD (md5G i) 0)
  (d, add32 b (rotl32 t (md5S.getD i 0)), b, c)

/-- Process one 64-byte block, updating the 4-word digest state. -/
def md5Block (st : Nat × Nat × Nat × Nat) (block : List Nat) :
    Nat × Nat × Nat × Nat :=
  let r := (List.range 64).foldl (md5Step (md5Words block)) st
  (add32 st.1 r.1, add32 st.2.1 r.2.1, add32 st.2.2.1 r.2.2.1,
   add32 st.2.2.2 r.2.2.2)

/-- Split a list into 64-element chunks; the fuel argument keeps the
recursion structural (fuel `≥ length` suffices). -/
def chunks64F : Nat → List Nat → List (List Nat)
  | 0, _ => []
  | _, [] => []
  | fuel + 1, l => l.take 64 :: chunks64F fuel (l.drop 64)

/-- MD5 padding: append `0x80`, zeros to 56 mod 64, then the 64-bit
little-endian bit length. -/
def md5Pad (msg : List Nat) : List Nat :=
  let r := (msg.length + 1) % 64
  let zeros := if r ≤ 56 then 56 - r else 120 - r
  msg ++ [0x80] ++ List.replicate zeros 0 ++ leBytes ((8 * msg.length) % 18446744073709551616) 8

/-- Full MD5 digest of a byte list, as 16 bytes. -/
def md5Digest (msg : List Nat) : List Nat :=
  let padded := md5Pad msg
  let st := (chunks64F padded.length padded).foldl md5Block
    (0x67452301, 0xefcdab89, 0x98badcfe, 0x10325476)
  leBytes st.1 4 ++ leBytes st.2.1 4 ++ leBytes st.2.2.1 4 ++ leBytes st.2.2.2 4

/-- One lowercase hex digit. -/
def hexDigit (n : Nat) : Char :=
  if n < 10 then Char.ofNat (48 + n) else Char.ofNat (87 + n)

/-- Lowercase hex rendering of a byte list (`hexdigest`). -/
def toHex (bytes : List Nat) : String :=
  String.mk (bytes.foldr (fun b acc => hexDigit (b / 16) :: hexDigit (b % 16) :: acc) [])

/-- Byte encoding of a string; models `str.encode("utf-8")` on the ASCII
inputs this development evaluates on, where UTF-8 bytes coincide with the
code points. -/
def asciiBytes (s : String) : List Nat := s.data.map Char.toNat

/-- `hashlib.md5(s.encode("utf-8")).hexdigest()`. -/
def md5hexS (s : String) : String := toHex (md5Digest (asciiBytes s))


/-! ## Kernel-reducible string primitives

The Lean core versions of these operations work over byte positions and do
not reduce well definitionally, so the Python string operations the source
uses are modelled directly over character lists. -/

/-- Python whitespace (`\s` / `str.strip` default set, ASCII part). -/
def wsChar (c : Char) : Bool :=
  c.toNat = 32 ∨ c.toNat = 9 ∨ c.toNat = 10 ∨ c.toNat = 13 ∨
  c.toNat = 11 ∨ c.toNat = 12

/-- `str.lower()` (ASCII). -/
def lowerCh (c : Char) : Char :=
  if 65 ≤ c.toNat ∧ c.toNat ≤ 90 then Char.ofNat (c.toNat + 32) else c

/-- `str.upper()` (ASCII). -/
def upperCh (c : Char) : Char :=
  if 97 ≤ c.toNat ∧ c.toNat ≤ 122 then Char.ofNat (c.toNat - 32) else c

/-- `s.lower()`. -/
def toLowerStr (s : String) : String := String.mk (s.data.map lowerCh)

/-- `s.upper()`. -/
def toUpperStr (s : String) : String := String.mk (s.data.map upperCh)

/-- `s.strip()`. -/
def trimStr (s : String) : String :=
  String.mk (((s.data.dropWhile wsChar).reverse.dropWhile wsChar).reverse)

/-- Character-list prefix test. -/
def startsW : List Char → List Char → Bool
  | [], _ => true
  | _ :: _, [] => false
  | p :: ps, c :: cs => p = c && startsW ps cs

/-- `s.startswith(p)`. -/
def startsWithStr (s p : String) : Bool := startsW p.data s.data

/-- `s.endswith(p)`. -/
def endsWithStr (s p : String) : Bool := startsW p.data.reverse s.data.reverse

/-- `s[:n]`. -/
def takeStr (s : String) (n : Nat) : String := String.mk (s.data.take n)

/-- `s[:-n]` (empty when `n` exceeds the length, as in Python). -/
def dropRightStr (s : String) (n : Nat) : String :=
  String.mk (s.data.take (s.data.length - n))

/-! ## Calendar dates

`datetime` values reach the core only at day granularity: the parser's
header dates are used via `.date()` / `strftime("%Y%m%d")`, both of which
ignore the time-of-day, so a date is modelled as a year/month/day triple. -/

/-- A calendar date (proleptic Gregorian, as Python `datetime.date`). -/
structure Date where
  y : Nat
  m : Nat
  d : Nat
deriving DecidableEq, Repr

/-- Gregorian leap-year test. -/
def isLeap (y : Nat) : Bool := y % 4 = 0 && (y % 100 ≠ 0 || y % 400 = 0)

/-- Days in a month. -/
def daysInMonth (y m : Nat) : Nat :=
  if m = 2 then (if isLeap y then 29 else 28)
  else if m = 4 ∨ m = 6 ∨ m = 9 ∨ m = 11 then 30
  else 31

/-- The day after a date, as `datetime + timedelta(days=1)` computes it. -/
def nextDay (dt : Date) : Date :=
  if dt.d < daysInMonth dt.y dt.m then ⟨dt.y, dt.m, dt.d + 1⟩
  else if dt.m < 12 then ⟨dt.y, dt.m + 1, 1⟩
  else ⟨dt.y + 1, 1, 1⟩

/-- `strftime("%Y%m%d")`. -/
def dateStr8 (dt : Date) : String := pad4 dt.y ++ pad2 dt.m ++ pad2 dt.d

/-- `str(datetime(...))` at midnight, `"YYYY-MM-DD HH:MM:SS"`; this is how a
date-valued cell renders when the employee-row scan stringifies it. -/
def dateStrFull (dt : Date) : String :=
  pad4 dt.y ++ "-" ++ pad2 dt.m ++ "-" ++ pad2 dt.d ++ " 00:00:00"

/-- Civil date from a day count where day 0 is 1970-01-01 (Howard Hinnant's
`civil_from_days`, specialised to the nonnegative shifted range). The input
is pre-shifted by 719468 so all divisions are on nonnegative numbers. -/
def civilFromShifted (z : Nat) : Date :=
  let era := z / 146097
  let doe := z % 146097
  let yoe := (doe - doe / 1460 + doe / 36524 - doe / 146096) / 365
  let yr := yoe + era * 400
  let doy := doe - (365 * yoe + yoe / 4 - yoe / 100)
  let mp := (5 * doy + 2) / 153
  let dd := doy - (153 * mp + 2) / 5 + 1
  let mm := if mp < 10 then mp + 3 else mp - 9
  ⟨if mm ≤ 2 then yr + 1 else yr, mm, dd⟩

/-- Excel serial-date conversion, `datetime(1899, 12, 30) + timedelta(days=s)`:
`none` models the `(ValueError, OverflowError)` branch, which fires exactly
when the result leaves `datetime`'s year range 1..9999 (serial values
-693593..2958465 stay in range; 1899-12-30 is day -25569 from 1970-01-01 and
the shift by 719468 makes the day count nonnegative). -/
def excelSerialDate (s : Int) : Option Date :=
  if s < -693593 ∨ 2958465 < s then none
  else some (civilFromShifted (s + 693899).toNat)

/-! ## ScheduleParser (`scripts/excel_parser.py`) -/

/-- A spreadsheet cell value as seen through `openpyxl` with
`data_only=True`: absent (`None`), a `datetime`, an integer number, or a
string. (Non-integer floats and other cell types are outside the model.) -/
inductive Cell where
  | empty
  | date (d : Date)
  | num (n : Int)
  | str (s : String)
deriving DecidableEq, Repr

/-- Python truthiness of a cell value (`if cell_value:`). -/
def cellTruthy : Cell → Bool
  | Cell.empty => false
  | Cell.date _ => true
  | Cell.num n => n ≠ 0
  | Cell.str s => s ≠ ""

/-- `str(cell_value)` on a cell. -/
def cellStr : Cell → String
  | Cell.empty => "None"
  | Cell.date d => dateStrFull d
  | Cell.num n => toString n
  | Cell.str s => s

/-- A worksheet: cell contents indexed by 1-based row and column, plus the
`max_row` / `max_column` bounds `openpyxl` reports. -/
structure Grid where
  cell : Nat → Nat → Cell
  maxRow : Nat
  maxCol : Nat

/-- Timed-shift configuration entry (`timed_shifts` table): display name,
`"HH:MM"` start and end strings and the spans-midnight flag. The source's
`end` field is called `stop` because `end` is a Lean keyword. -/
structure TimedShiftCfg where
  name : String
  start : String
  stop : String
  spansMidnight : Bool
deriving DecidableEq, Repr

/-- All-day event configuration entry (`allday_events` table). -/
structure AllDayCfg where
  name : String
deriving DecidableEq, Repr

/-- The configuration record the core consumes: Excel structure positions,
the two shift-code tables, ignore codes, and calendar settings. -/
structure Config where
  dateRow : Nat
  firstEmployeeRow : Nat
  nameColumn : Nat
  groupColumn : Nat
  firstScheduleColumn : Nat
  timedShifts : List (String × TimedShiftCfg)
  alldayEvents : List (String × AllDayCfg)
  ignoreCodes : List String
  timezoneStr : String
  namePfx : String

/-- One shift entry: date plus recognized code (`ShiftEntry`). -/
structure ShiftEntry where
  date : Date
  code : String
deriving DecidableEq, Repr

/-- An employee with display name, group and ordered shifts (`Employee`). -/
structure Employee where
  name : String
  group : String
  shifts : List ShiftEntry
deriving DecidableEq, Repr

/-- Whitespace-run collapsing, `re.sub(r"\s+", "_", s)`: each maximal run
of whitespace becomes a single underscore. The flag records whether the
previous character was whitespace. -/
def collapseWs : List Char → Bool → List Char
  | [], _ => []
  | c :: cs, inRun =>
    if wsChar c then
      if inRun then collapseWs cs true else '_' :: collapseWs cs true
    else c :: collapseWs cs false

/-- Keep only `[a-z0-9_]`, `re.sub(r"[^a-z0-9_]", "", s)`. -/
def keepSlugChar (c : Char) : Bool :=
  (97 ≤ c.toNat ∧ c.toNat ≤ 122) ∨ (48 ≤ c.toNat ∧ c.toNat ≤ 57) ∨ c = '_'

/-- The filename-safe identity slug of a display name
(`Employee.filename` without the extension): lowercase, strip, collapse
whitespace to underscores, drop the remaining special characters. -/
def slugName (name : String) : String :=
  String.mk ((collapseWs (trimStr (toLowerStr name)).data false).filter keepSlugChar)

/-- `Employee.filename`: the identity key, slug plus `.ics`. -/
def filenameOf (name : String) : String := slugName name ++ ".ics"

/-- `re.sub(r"[^a-z0-9]", "_", group.lower())`: the normalized group used
for duplicate re-keying (non-alphanumerics are replaced, not dropped). -/
def safeGroup (grp : String) : String :=
  String.mk ((toLowerStr grp).data.map fun c =>
    if (97 ≤ c.toNat ∧ c.toNat ≤ 122) ∨ (48 ≤ c.toNat ∧ c.toNat ≤ 57) then c else '_')

/-- The re-keyed filename for a colliding duplicate:
`filename[:-4] + "_" + safe_group + ".ics"`. -/
def rekeyFn (fn grp : String) : String :=
  dropRightStr fn 4 ++ "_" ++ safeGroup grp ++ ".ics"

/-- The annotated display name a colliding duplicate receives:
`f"{name} ({current_group})"`. -/
def annotName (name grp : String) : String := name ++ " (" ++ grp ++ ")"

/-- A `strptime`-style date-format token: a 4-digit year, a 1-2 digit
month/day, or a literal separator. -/
inductive FmtTok where
  | year4
  | mon
  | day
  | lit (c : Char)

/-- Digit test and value. -/
def digitVal (c : Char) : Option Nat :=
  if 48 ≤ c.toNat ∧ c.toNat ≤ 57 then some (c.toNat - 48) else none

/-- Match one format token at the head of the input, returning the field
values gathered so far. Mirrors CPython `_strptime` patterns: `%Y` is
exactly four digits; `%m`/`%d` prefer a valid two-digit match and fall back
to a single nonzero digit (the regex alternations `1[0-2]|0[1-9]|[1-9]` and
`3[01]|[12]\d|0[1-9]|[1-9]`). -/
def matchTok (t : FmtTok) (cs : List Char) : Option (Nat × List Char) :=
  match t with
  | FmtTok.lit c => match cs with
    | c' :: rest => if c' = c then some (0, rest) else none
    | [] => none
  | FmtTok.year4 => match cs with
    | a :: b :: c :: d :: rest =>
      match digitVal a, digitVal b, digitVal c, digitVal d with
      | some va, some vb, some vc, some vd =>
          some (1000 * va + 100 * vb + 10 * vc + vd, rest)
      | _, _, _, _ => none
    | _ => none
  | FmtTok.mon => match cs with
    | a :: b :: rest =>
      match digitVal a, digitVal b with
      | some va, some vb =>
          if 1 ≤ 10 * va + vb ∧ 10 * va + vb ≤ 12 then some (10 * va + vb, rest)
          else if 1 ≤ va then some (va, b :: rest) else none
      | some va, none => if 1 ≤ va then some (va, b :: rest) else none
      | _, _ => none
    | [a] => match digitVal a with
      | some va => if 1 ≤ va then some (va, []) else none
      | none => none
    | [] => none
  | FmtTok.day => match cs with
    | a :: b :: rest =>
      match digitVal a, digitVal b with
      | some va, some vb =>
          if 1 ≤ 10 * va + vb ∧ 10 * va + vb ≤ 31 then some (10 * va + vb, rest)
          else if 1 ≤ va then some (va, b :: rest) else none
      | some va, none => if 1 ≤ va then some (va, b :: rest) else none
      | _, _ => none
    | [a] => match digitVal a with
      | some va => if 1 ≤ va then some (va, []) else none
      | none => none
    | [] => none

/-- Run a whole format over the input, gathering `(year, month, day)`;
fails unless the entire string is consumed (`strptime` raises on
unconverted trailing data). -/
def runFmt : List FmtTok → List Char → Nat → Nat → Nat → Option Date
  | [], [], yv, mv, dv => some ⟨yv, mv, dv⟩
  | [], _ :: _, _, _, _ => none
  | t :: ts, cs, yv, mv, dv =>
    match matchTok t cs with
    | none => none
    | some (v, rest) =>
      match t with
      | FmtTok.year4 => runFmt ts rest v mv dv
      | FmtTok.mon => runFmt ts rest yv v dv
      | FmtTok.day => runFmt ts rest yv mv v
      | FmtTok.lit _ => runFmt ts rest yv mv dv

/-- `datetime.strptime(s, fmt)` for one of the four date formats: match,
then validate the date as the `datetime` constructor does (year ≥ 1, day
within the month). -/
def strpDate (fmt : List FmtTok) (s : String) : Option Date :=
  match runFmt fmt s.data 1900 1 1 with
  | none => none
  | some dt =>
    if 1 ≤ dt.y ∧ 1 ≤ dt.m ∧ dt.m ≤ 12 ∧ 1 ≤ dt.d ∧ dt.d ≤ daysInMonth dt.y dt.m
    then some dt else none

/-- The ordered format list from `_parse_dates`:
`['%Y-%m-%d', '%d-%m-%Y', '%d/%m/%Y', '%m/%d/%Y']`. -/
def dateFormats : List (List FmtTok) :=
  [[FmtTok.year4, FmtTok.lit '-', FmtTok.mon, FmtTok.lit '-', FmtTok.day],
   [FmtTok.day, FmtTok.lit '-', FmtTok.mon, FmtTok.lit '-', FmtTok.year4],
   [FmtTok.day, FmtTok.lit '/', FmtTok.mon, FmtTok.lit '/', FmtTok.year4],
   [FmtTok.mon, FmtTok.lit '/', FmtTok.day, FmtTok.lit '/', FmtTok.year4]]

/-- Interpret one header cell as a date, following `_parse_dates`: `None`
is skipped; a native date is accepted; a number is treated as an Excel
serial day offset from 1899-12-30; a string is tried against the format
list in order, first success wins. `none` means the column is skipped. -/
def parseDateCell (c : Cell) : Option Date :=
  match c with
  | Cell.empty => none
  | Cell.date d => some d
  | Cell.num n => excelSerialDate n
  | Cell.str s =>
    (dateFormats.map fun fmt => strpDate fmt s).foldl (fun acc r => acc.orElse fun _ => r) none

/-- The header columns scanned by `_parse_dates`: from
`first_schedule_column` to `max_column` inclusive. -/
def colRange (cfg : Config) (g : Grid) : List Nat :=
  (List.range (g.maxCol + 1 - cfg.firstScheduleColumn)).map (· + cfg.firstScheduleColumn)

/-- `_parse_dates`: column-to-date bindings for every header cell that
parses, in ascending column order (Python dict insertion order). -/
def parseDates (cfg : Config) (g : Grid) : List (Nat × Date) :=
  (colRange cfg g).filterMap fun c =>
    (parseDateCell (g.cell cfg.dateRow c)).map fun d => (c, d)

/-- The recognized shift codes: keys of both code tables
(`valid_codes = timed_shifts | allday_events`). -/
def validCodes (cfg : Config) : List String :=
  keysA cfg.timedShifts ++ keysA cfg.alldayEvents

/-- The shift cells of one employee row: each date column's cell is
stringified, stripped and upper-cased; empty and ignored codes are
dropped; only recognized codes become `ShiftEntry` records, in column
order. -/
def shiftsForRow (cfg : Config) (g : Grid) (dates : List (Nat × Date)) (row : Nat) :
    List ShiftEntry :=
  dates.filterMap fun cd =>
    match g.cell row cd.1 with
    | Cell.empty => none
    | v =>
      let code := toUpperStr (trimStr (cellStr v))
      if code ∈ cfg.ignoreCodes ∨ code = "" then none
      else if code ∈ validCodes cfg then some ⟨cd.2, code⟩
      else none

/-- The group-header markers recognized in the group column. -/
def isGroupHeader (gs : String) : Bool :=
  startsWithStr (toUpperStr gs) "PLOEG" ||
  toUpperStr gs ∈ ["SAMPLE RETAIN ASSISTANTS", "DAY TIME SUPPORT", "INTERNS", "0H CONTRACTS"]

/-- What `_parse_employees` does with one row given the current group. -/
inductive RowAction where
  | setGroup (g : String)
  | skip
  | addEmp (name : String) (shifts : List ShiftEntry)

/-- Classify one row, mirroring the scan in `_parse_employees`: a truthy
group cell matching a group marker updates the group; an empty or
header-like name skips the row; a `PLOEG`-prefixed name updates the group;
otherwise the row's recognized shifts are gathered and the row is an
employee row only when at least one shift was found. -/
def rowAction (cfg : Config) (g : Grid) (dates : List (Nat × Date)) (row : Nat) :
    RowAction :=
  let gc := g.cell row cfg.groupColumn
  if cellTruthy gc && isGroupHeader (trimStr (cellStr gc)) then
    RowAction.setGroup (trimStr (cellStr gc))
  else
    let nc := g.cell row cfg.nameColumn
    if ¬ cellTruthy nc then RowAction.skip
    else
      let name := trimStr (cellStr nc)
      if name = "" ∨ toUpperStr name ∈ ["NAME", "NAAM", "EMPLOYEE"] then RowAction.skip
      else if startsWithStr (toUpperStr name) "PLOEG" then RowAction.setGroup name
      else
        let shifts := shiftsForRow cfg g dates row
        if shifts = [] then RowAction.skip else RowAction.addEmp name shifts

/-- The row scan of `_parse_employees`: thread the current group through
the rows; an employee row is stored under its slug filename, or — when
that key is already taken — re-keyed with the current group and stored
with an annotated display name. -/
def processRows (cfg : Config) (g : Grid) (dates : List (Nat × Date)) :
    List Nat → String → List (String × Employee) → List (String × Employee)
  | [], _, acc => acc
  | r :: rs, grp, acc =>
    match rowAction cfg g dates r with
    | RowAction.setGroup g' => processRows cfg g dates rs g' acc
    | RowAction.skip => processRows cfg g dates rs grp acc
    | RowAction.addEmp name shifts =>
      let fn := filenameOf name
      if (lookupA acc fn).isSome then
        processRows cfg g dates rs grp
          (insertA acc (rekeyFn fn grp) ⟨annotName name grp, grp, shifts⟩)
      else
        processRows cfg g dates rs grp (insertA acc fn ⟨name, grp, shifts⟩)

/-- The employee rows scanned: `first_employee_row` to `max_row`. -/
def rowIdxs (cfg : Config) (g : Grid) : List Nat :=
  (List.range (g.maxRow + 1 - cfg.firstEmployeeRow)).map (· + cfg.firstEmployeeRow)

/-- `_parse_employees` applied to the whole worksheet (initial group `""`,
empty snapshot). -/
def parseEmployeesG (cfg : Config) (g : Grid) : List (String × Employee) :=
  processRows cfg g (parseDates cfg g) (rowIdxs cfg g) "" []

/-- The error outcomes of the pipeline: missing source file
(`FileNotFoundError`), no recoverable date header (`ValueError`), or a
malformed `"HH:MM"` string in the code tables (`strptime ValueError`). -/
inductive SyncErr where
  | excelNotFound
  | noDates
  | badTimeConfig
deriving DecidableEq, Repr

/-- `ExcelParser.parse` on an existing workbook: fails with `noDates` when
no header column parses, otherwise returns the snapshot. -/
def parseExcelGrid (cfg : Config) (g : Grid) : Except SyncErr (List (String × Employee)) :=
  let dates := parseDates cfg g
  if dates = [] then Except.error SyncErr.noDates
  else Except.ok (processRows cfg g dates (rowIdxs cfg g) "" [])

/-- `ExcelParser.parse` including the `os.path.exists` check: the file is
`none` when the path does not exist. -/
def parseExcelFile (cfg : Config) (file : Option Grid) :
    Except SyncErr (List (String × Employee)) :=
  match file with
  | none => Except.error SyncErr.excelNotFound
  | some g => parseExcelGrid cfg g

/-! ## CalendarBuilder (`scripts/ics_generator.py`)

The `icalendar` document is modelled structurally: a `VCalendar` records
the top-level properties, the timezone block and the events exactly as the
code adds them, and `renderCalendar` serializes that structure
deterministically (one line per property), standing in for
`Calendar.to_ical()`. -/

/-- An event boundary: a local date-time (date plus hour/minute, localized
to the configured zone) or a bare date for all-day events. -/
inductive EventTime where
  | timed (d : Date) (h : Nat) (min : Nat)
  | allday (d : Date)
deriving DecidableEq, Repr

/-- One VEVENT as the code builds it: summary, start, end, the
generation-time DTSTAMP (`datetime.now(self.tz)`, modelled as the run's
time parameter), the deterministic UID and the description. -/
structure VEvent where
  summary : String
  dtstart : EventTime
  dtend : EventTime
  dtstamp : Nat
  uid : String
  description : String
deriving DecidableEq, Repr

/-- One calendar document: the six top-level properties added by
`generate_calendar`, the timezone identifier of the VTIMEZONE block added
by `_add_timezone`, and the events in shift order. -/
structure VCalendar where
  props : List (String × String)
  tzid : String
  events : List VEvent
deriving DecidableEq, Repr

/-- `strptime(s, "%H:%M").time()`: hour `2[0-3]|[0-1]\d|\d`, literal
colon, minute `[0-5]\d|\d`, whole string consumed. -/
def parseHM (s : String) : Option (Nat × Nat) :=
  let hPart : List Char → Option (Nat × List Char) := fun cs =>
    match cs with
    | a :: b :: rest =>
      (match digitVal a, digitVal b with
       | some va, some vb =>
          if 10 * va + vb ≤ 23 then some (10 * va + vb, rest)
          else some (va, b :: rest)
       | some va, none => some (va, b :: rest)
       | _, _ => none)
    | [a] => (digitVal a).map fun va => (va, [])
    | [] => none
  let mPart : List Char → Option (Nat × List Char) := fun cs =>
    match cs with
    | a :: b :: rest =>
      (match digitVal a, digitVal b with
       | some va, some vb =>
          if va ≤ 5 then some (10 * va + vb, rest)
          else some (va, b :: rest)
       | some va, none => some (va, b :: rest)
       | _, _ => none)
    | [a] => (digitVal a).map fun va => (va, [])
    | [] => none
  match hPart s.data with
  | none => none
  | some (hv, rest) =>
    match rest with
    | ':' :: rest2 =>
      match mPart rest2 with
      | some (mv, []) => some (hv, mv)
      | _ => none
    | _ => none

/-- `_generate_uid`: `strftime("%Y%m%d")` of the shift date, then
`f"{date_str}-{code}-{md5(raw)[:16]}@rooster-sync"` where
`raw = f"{employee_name}-{date_str}-{code}"`. Hashes the display name,
not the identity key. -/
def generateUid (employeeName : String) (shift : ShiftEntry) : String :=
  let ds := dateStr8 shift.date
  let raw := employeeName ++ "-" ++ ds ++ "-" ++ shift.code
  ds ++ "-" ++ shift.code ++ "-" ++ takeStr (md5hexS raw) 16 ++ "@rooster-sync"

/-- `_create_timed_event`: parse the configured times (a malformed string
is a fatal configuration error), anchor both to the shift's date, move-
the end to the next day exactly when `spans_midnight` is set. -/
def createTimedEvent (tc : TimedShiftCfg) (employeeName : String) (now : Nat)
    (shift : ShiftEntry) : Except SyncErr VEvent :=
  match parseHM tc.start with
  | none => Except.error SyncErr.badTimeConfig
  | some st =>
    match parseHM tc.stop with
    | none => Except.error SyncErr.badTimeConfig
    | some en =>
      let endDate := if tc.spansMidnight then nextDay shift.date else shift.date
      Except.ok ⟨tc.name, EventTime.timed shift.date st.1 st.2,
        EventTime.timed endDate en.1 en.2, now, generateUid employeeName shift,
        "Shift code: " ++ shift.code⟩

/-- `_create_allday_event`: DTSTART is the shift's date, DTEND the next
day (exclusive all-day convention). -/
def createAllDayEvent (ac : AllDayCfg) (employeeName : String) (now : Nat)
    (shift : ShiftEntry) : VEvent :=
  ⟨ac.name, EventTime.allday shift.date, EventTime.allday (nextDay shift.date),
   now, generateUid employeeName shift, "Code: " ++ shift.code⟩

/-- `_create_event`: upper-case the code, try the timed table, then the
all-day table; unknown codes yield no event. -/
def createEvent (cfg : Config) (employeeName : String) (now : Nat)
    (shift : ShiftEntry) : Except SyncErr (Option VEvent) :=
  let code := toUpperStr shift.code
  match lookupA cfg.timedShifts code with
  | some tc => (createTimedEvent tc employeeName now shift).map some
  | none =>
    match lookupA cfg.alldayEvents code with
    | some ac => Except.ok (some (createAllDayEvent ac employeeName now shift))
    | none => Except.ok none

/-- Build the event list for a shift sequence, dropping unknown codes and
propagating the first configuration error (the loop in
`generate_calendar`). -/
def collectEvents (cfg : Config) (employeeName : String) (now : Nat) :
    List ShiftEntry → Except SyncErr (List VEvent)
  | [] => Except.ok []
  | s :: ss =>
    match createEvent cfg employeeName now s with
    | Except.error e => Except.error e
    | Except.ok none => collectEvents cfg employeeName now ss
    | Except.ok (some ev) =>
      match collectEvents cfg employeeName now ss with
      | Except.error e => Except.error e
      | Except.ok evs => Except.ok (ev :: evs)

/-- `ICSGenerator.generate_calendar`: the six `cal.add` properties in
order, the VTIMEZONE block, then one event per recognized shift in shift
order. -/
def generateCalendar (cfg : Config) (e : Employee) (now : Nat) :
    Except SyncErr VCalendar :=
  match collectEvents cfg e.name now e.shifts with
  | Except.error err => Except.error err
  | Except.ok evs =>
    Except.ok
      ⟨[("PRODID", "-//Rooster Calendar Sync//rooster-sync//NL"),
        ("VERSION", "2.0"),
        ("CALSCALE", "GREGORIAN"),
        ("METHOD", "PUBLISH"),
        ("X-WR-CALNAME", cfg.namePfx ++ " - " ++ e.name),
        ("X-WR-TIMEZONE", cfg.timezoneStr)],
       cfg.timezoneStr, evs⟩

/-- Serialize an event boundary: `YYYYMMDDTHHMMSS` for timed values (the
zone travels as a TZID parameter in the real output), bare `YYYYMMDD` for
all-day values. -/
def renderEventTime : EventTime → String
  | EventTime.timed d h min => dateStr8 d ++ "T" ++ pad2 h ++ pad2 min ++ "00"
  | EventTime.allday d => dateStr8 d

/-- Serialize one VEVENT. DTSTAMP renders the generation-time parameter
(standing in for the formatted `datetime.now` value, which is injective
on distinct second-resolution instants). -/
def renderEvent (ev : VEvent) : String :=
  "BEGIN:VEVENT\n" ++
  "SUMMARY:" ++ ev.summary ++ "\n" ++
  "DTSTART:" ++ renderEventTime ev.dtstart ++ "\n" ++
  "DTEND:" ++ renderEventTime ev.dtend ++ "\n" ++
  "DTSTAMP:" ++ toString ev.dtstamp ++ "\n" ++
  "UID:" ++ ev.uid ++ "\n" ++
  "DESCRIPTION:" ++ ev.description ++ "\n" ++
  "END:VEVENT\n"

/-- The static VTIMEZONE block `_add_timezone` emits (fixed
standard/daylight rules, parameterized only by the zone identifier). -/
def renderTzBlock (tzid : String) : String :=
  "BEGIN:VTIMEZONE\nTZID:" ++ tzid ++ "\n" ++
  "BEGIN:STANDARD\nTZOFFSETFROM:+0200\nTZOFFSETTO:+0100\nTZNAME:CET\n" ++
  "DTSTART:19701025T030000\nRRULE:FREQ=YEARLY;BYMONTH=10;BYDAY=-1SU\nEND:STANDARD\n" ++
  "BEGIN:DAYLIGHT\nTZOFFSETFROM:+0100\nTZOFFSETTO:+0200\nTZNAME:CEST\n" ++
  "DTSTART:19700329T020000\nRRULE:FREQ=YEARLY;BYMONTH=3;BYDAY=-1SU\nEND:DAYLIGHT\n" ++
  "END:VTIMEZONE\n"

/-- `Calendar.to_ical()`: deterministic serialization of the structured
document. -/
def renderCalendar (c : VCalendar) : String :=
  "BEGIN:VCALENDAR\n" ++
  String.join (c.props.map fun p => p.1 ++ ":" ++ p.2 ++ "\n") ++
  renderTzBlock c.tzid ++
  String.join (c.events.map renderEvent) ++
  "END:VCALENDAR\n"

/-! ## ChangeTracker (`scripts/change_detector.py`) -/

/-- The persisted sync state:
`{"excel_hash": ..., "employee_hashes": {...}, "last_sync": ...}`. -/
structure SyncState where
  excelHash : Option String
  employeeHashes : List (String × String)
  lastSync : Option String
deriving DecidableEq, Repr

/-- The on-disk state file: absent, unreadable/corrupt, or a valid record. -/
inductive StateFileD where
  | absent
  | corrupt
  | good (st : SyncState)
deriving DecidableEq, Repr

/-- `_load_state`: a valid file is loaded; an absent or corrupt file
yields the default empty state (corruption is swallowed). -/
def loadState : StateFileD → SyncState
  | StateFileD.good st => st
  | _ => ⟨none, [], none⟩

/-- `_content_hash`: MD5 hex digest of the serialized calendar bytes. -/
def contentHash (content : String) : String := md5hexS content

/-- `check_calendar_changed`: compare the candidate content hash with the
stored per-employee hash; a missing stored hash counts as changed. -/
def checkCalendarChanged (st : SyncState) (filename : String) (content : String) :
    Bool :=
  lookupA st.employeeHashes filename ≠ some (contentHash content)

/-- `update_calendar_hash`. -/
def updateCalendarHash (st : SyncState) (filename : String) (content : String) :
    SyncState :=
  ⟨st.excelHash, insertA st.employeeHashes filename (contentHash content), st.lastSync⟩

/-- `remove_employee_hash` (`pop(filename, None)`). -/
def removeEmployeeHash (st : SyncState) (filename : String) : SyncState :=
  ⟨st.excelHash, eraseA st.employeeHashes filename, st.lastSync⟩

/-- The filesystem and state file as the orchestrator sees them: the
persisted state file, the active calendar directory, the archive
directory, and the source spreadsheet (`none` = path does not exist).
File contents are the serialized strings. -/
structure World where
  stateFile : StateFileD
  outputFiles : List (String × String)
  archiveFiles : List (String × String)
  excel : Option Grid

/-- A canonical byte encoding of the spreadsheet file, standing in for
the raw bytes `_file_hash` reads; two equal files encode equally. -/
def gridBytes (g : Grid) : String :=
  "XLSX[" ++ toString g.maxRow ++ "," ++ toString g.maxCol ++ "]" ++
  String.join (((List.range g.maxRow).map (· + 1)).map fun r =>
    String.join (((List.range g.maxCol).map (· + 1)).map fun c =>
      "|" ++ toString r ++ "." ++ toString c ++ "=" ++
      (match g.cell r c with
       | Cell.empty => ""
       | Cell.date d => "D" ++ dateStr8 d
       | Cell.num n => "N" ++ toString n
       | Cell.str s => "S" ++ s)))

/-- `get_existing_ics_files`: the `.ics` filenames present in the active
calendar directory. -/
def existingIcs (w : World) : List String :=
  (keysA w.outputFiles).filter fun f => endsWithStr f ".ics"

/-- `archive_removed_employee`: a missing active file is a no-op returning
`none`; otherwise the file is moved into the archive directory under a
timestamp-suffixed name (`filename[:-4] + "_" + timestamp + ".ics"`) and
the stored per-employee hash is dropped. The formatted
`strftime("%Y%m%d_%H%M%S")` timestamp is modelled by the run's time
parameter rendered in decimal. -/
def archiveRemovedEmployee (filename : String) (now : Nat) (st : SyncState)
    (w : World) : Option String × SyncState × World :=
  match lookupA w.outputFiles filename with
  | none => (none, st, w)
  | some content =>
    let archName := dropRightStr filename 4 ++ "_" ++ toString now ++ ".ics"
    (some archName, removeEmployeeHash st filename,
     ⟨w.stateFile, eraseA w.outputFiles filename,
      insertA w.archiveFiles archName content, w.excel⟩)

/-- `finalize_sync`: stamp the current time as `last_sync` and persist
the whole state; this is the only write to the state file. -/
def finalizeSync (st : SyncState) (now : Nat) (w : World) : World :=
  ⟨StateFileD.good ⟨st.excelHash, st.employeeHashes, some (toString now)⟩,
   w.outputFiles, w.archiveFiles, w.excel⟩

/-! ## SyncOrchestrator (`scripts/rooster_sync.py`) -/

/-- `ChangeReport`: the four classification lists plus whether the source
file changed and the run timestamp. The source stores display strings in
the lists; the model stores the identity keys (filenames) the entries are
derived from, since the classification is per identity. -/
structure ChangeReport where
  newEmployees : List String
  removedEmployees : List String
  updatedEmployees : List String
  unchangedEmployees : List String
  excelFileChanged : Bool
  timestamp : String
deriving DecidableEq, Repr

/-- One run's outcome: the resulting filesystem (reflecting any archives
and writes that happened before an abort), the report or the fatal error,
and the list of files passed to `save_calendar`, in order. -/
structure RunResult where
  world : World
  outcome : Except SyncErr ChangeReport
  writes : List String

/-- The archive loop of `run_sync` (lines 154-161): archive each removed
identity; an identity is reported removed only when a file was actually
archived. -/
def archiveLoop (now : Nat) : List String → SyncState → World →
    List String × SyncState × World
  | [], st, w => ([], st, w)
  | f :: fs, st, w =>
    match archiveRemovedEmployee f now st w with
    | (some _, st', w') =>
      let r := archiveLoop now fs st' w'
      (f :: r.1, r.2.1, r.2.2)
    | (none, st', w') => archiveLoop now fs st' w'

/-- The generate/update loop of `run_sync` (lines 164-186): build each
current identity's candidate document, classify it as new / updated /
unchanged, and write it when new, changed or forced. A configuration
error aborts the loop, leaving earlier writes in place. -/
def genLoop (cfg : Config) (force : Bool) (now : Nat) (existing0 : List String) :
    List (String × Employee) → SyncState → World →
    List String → List String → List String → List String →
    World × SyncState × List String ×
      Except SyncErr (List String × List String × List String)
  | [], st, w, nl, ul, cl, ws => (w, st, ws, Except.ok (nl, ul, cl))
  | (filename, emp) :: rest, st, w, nl, ul, cl, ws =>
    match generateCalendar cfg emp now with
    | Except.error e => (w, st, ws, Except.error e)
    | Except.ok cal =>
      let bytes := renderCalendar cal
      let isNew := ¬ filename ∈ existing0
      let hasChanged := checkCalendarChanged st filename bytes
      let nl' := if isNew then nl ++ [filename] else nl
      if isNew ∨ hasChanged = true ∨ force = true then
        let w' : World := ⟨w.stateFile, insertA w.outputFiles filename bytes,
          w.archiveFiles, w.excel⟩
        let st' := updateCalendarHash st filename bytes
        let ul' := if ¬ isNew ∧ hasChanged = true then ul ++ [filename] else ul
        genLoop cfg force now existing0 rest st' w' nl' ul' cl (ws ++ [filename])
      else
        genLoop cfg force now existing0 rest st w nl' ul (cl ++ [filename]) ws

/-- The tail of `run_sync` after the generate/update loop (lines 188-202):
on success record the source hash, finalize the state, and build the
report; a loop error aborts with the loop's filesystem effects kept. -/
def finishSync (curHash : String) (excelChanged : Bool) (now : Nat)
    (removedL : List String)
    (gl : World × SyncState × List String ×
      Except SyncErr (List String × List String × List String)) : RunResult :=
  match gl.2.2.2 with
  | Except.error e => ⟨gl.1, Except.error e, gl.2.2.1⟩
  | Except.ok lists =>
    let st2 := gl.2.1
    let st3 : SyncState := ⟨some curHash, st2.employeeHashes, st2.lastSync⟩
    ⟨finalizeSync st3 now gl.1,
     Except.ok ⟨lists.1, removedL, lists.2.1, lists.2.2, excelChanged, toString now⟩,
     gl.2.2.1⟩

/-- The body of `run_sync` once the source file exists and has parsed:
detect whether the source changed, diff identities against the existing
output files, archive removed identities, generate/update current ones,
then finish. -/
def runSyncParsed (cfg : Config) (force : Bool) (now : Nat) (w : World)
    (g : Grid) (emps : List (String × Employee)) : RunResult :=
  let st0 := loadState w.stateFile
  let curHash := md5hexS (gridBytes g)
  let excelChanged := st0.excelHash ≠ some curHash
  let existing := existingIcs w
  let cur := keysA emps
  let removedKeys := existing.filter fun f => ¬ f ∈ cur
  let ar := archiveLoop now removedKeys st0 w
  let gl := genLoop cfg force now existing emps ar.2.1 ar.2.2 [] [] [] []
  finishSync curHash excelChanged now ar.1 gl

/-- `run_sync`: load state, require the source file, parse it, then run
the archive and generate/update phases. Failures abort with the state
file untouched. -/
def runSync (cfg : Config) (force : Bool) (now : Nat) (w : World) : RunResult :=
  match w.excel with
  | none => ⟨w, Except.error SyncErr.excelNotFound, []⟩
  | some g =>
    match parseExcelGrid cfg g with
    | Except.error e => ⟨w, Except.error e, []⟩
    | Except.ok emps => runSyncParsed cfg force now w g emps

/-! ## Association-list lemmas -/

theorem lookupA_insertA_self {α : Type} (l : List (String × α)) (k : String) (v : α) :
    lookupA (insertA l k v) k = some v := by
  induction l with
  | nil => simp [insertA, lookupA]
  | cons hd tl ih =>
    obtain ⟨k0, v0⟩ := hd
    by_cases h : k = k0 <;> simp [insertA, lookupA, h, ih]

theorem lookupA_eraseA_ne {α : Type} (l : List (String × α)) (k k' : String)
    (h : k' ≠ k) : lookupA (eraseA l k) k' = lookupA l k' := by
  induction l with
  | nil => simp [eraseA]
  | cons hd tl ih =>
    obtain ⟨k0, v0⟩ := hd
    by_cases h0 : k = k0
    · subst h0
      simp [eraseA, lookupA, h]
    · by_cases h1 : k' = k0 <;> simp [eraseA, lookupA, h0, h1, ih]

theorem lookupA_eq_none_iff {α : Type} (l : List (String × α)) (k : String) :
    lookupA l k = none ↔ k ∉ keysA l := by
  induction l with
  | nil => simp [lookupA, keysA]
  | cons hd tl ih =>
    obtain ⟨k0, v0⟩ := hd
    by_cases h : k = k0 <;> simp [lookupA, keysA, h, ih]

theorem lookupA_eraseA_self {α : Type} (l : List (String × α)) (k : String)
    (hnd : (keysA l).Nodup) : lookupA (eraseA l k) k = none := by
  induction l with
  | nil => simp [eraseA, lookupA]
  | cons hd tl ih =>
    obtain ⟨k0, v0⟩ := hd
    simp only [keysA, List.map_cons, List.nodup_cons] at hnd
    by_cases h : k = k0
    · subst h
      simp only [eraseA, if_pos rfl]
      rw [lookupA_eq_none_iff]
      exact fun hm => hnd.1 (by simpa [keysA] using hm)
    · simp [eraseA, lookupA, h, ih hnd.2]

theorem keysA_eraseA_subset {α : Type} (l : List (String × α)) (k k' : String)
    (h : k' ≠ k) : k' ∈ keysA (eraseA l k) ↔ k' ∈ keysA l := by
  induction l with
  | nil => simp [eraseA]
  | cons hd tl ih =>
    obtain ⟨k0, v0⟩ := hd
    by_cases h0 : k = k0
    · subst h0
      simp [eraseA, keysA, h]
    · simp [eraseA, keysA, h0] at ih ⊢
      tauto

theorem insertA_of_lookup_none {α : Type} (l : List (String × α)) (k : String) (v : α)
    (h : lookupA l k = none) : insertA l k v = l ++ [(k, v)] := by
  induction l with
  | nil => simp [insertA]
  | cons hd tl ih =>
    obtain ⟨k0, v0⟩ := hd
    by_cases h0 : k = k0
    · simp [lookupA, h0] at h
    · simp only [lookupA, if_neg h0] at h
      simp [insertA, h0, ih h]

theorem lookupA_append_left_none {α : Type} (l l' : List (String × α)) (k : String)
    (h : lookupA l k = none) : lookupA (l ++ l') k = lookupA l' k := by
  induction l with
  | nil => simp
  | cons hd tl ih =>
    obtain ⟨k0, v0⟩ := hd
    by_cases h0 : k = k0
    · simp [lookupA, h0] at h
    · simp only [lookupA, if_neg h0] at h
      simp [lookupA, h0, ih h]

theorem keysA_insertA {α : Type} (l : List (String × α)) (k : String) (v : α) :
    keysA (insertA l k v) = if k ∈ keysA l then keysA l else keysA l ++ [k] := by
  induction l with
  | nil => simp [insertA, keysA]
  | cons hd tl ih =>
    obtain ⟨k0, v0⟩ := hd
    by_cases h0 : k = k0
    · subst h0
      simp [insertA, keysA]
    · simp only [insertA, if_neg h0, keysA, List.map_cons]
      rw [show List.map Prod.fst (insertA tl k v) = keysA (insertA tl k v) from rfl, ih]
      simp only [keysA, List.mem_cons]
      by_cases h1 : k ∈ List.map Prod.fst tl
      · simp [h1, h0]
      · simp [h1, h0]

theorem mem_keysA_insertA {α : Type} (l : List (String × α)) (k k' : String) (v : α) :
    k' ∈ keysA (insertA l k v) ↔ k' ∈ keysA l ∨ k' = k := by
  rw [keysA_insertA]
  by_cases h : k ∈ keysA l
  · simp only [if_pos h]
    constructor
    · exact fun hm => Or.inl hm
    · rintro (hm | rfl)
      · exact hm
      · exact h
  · simp [if_neg h]

theorem nodup_keysA_insertA {α : Type} (l : List (String × α)) (k : String) (v : α)
    (h : (keysA l).Nodup) : (keysA (insertA l k v)).Nodup := by
  rw [keysA_insertA]
  by_cases hm : k ∈ keysA l
  · simpa [if_pos hm] using h
  · rw [if_neg hm]
    simpa [List.nodup_append] using ⟨h, fun hk => hm hk⟩

/-! ## Characterizing the row scan -/

/-- The qualifying employee rows of a scan, in order: for each row that
`rowAction` classifies as an employee row, its name, the group current at
that point, and its shifts. This is the trace the insertion logic of
`_parse_employees` consumes. -/
def empRowsP (cfg : Config) (g : Grid) (dates : List (Nat × Date)) :
    List Nat → String → List (String × String × List ShiftEntry)
  | [], _ => []
  | r :: rs, grp =>
    match rowAction cfg g dates r with
    | RowAction.setGroup g' => empRowsP cfg g dates rs g'
    | RowAction.skip => empRowsP cfg g dates rs grp
    | RowAction.addEmp n s => (n, grp, s) :: empRowsP cfg g dates rs grp

/-- The qualifying employee rows of a full parse. -/
def empRowsG (cfg : Config) (g : Grid) : List (String × String × List ShiftEntry) :=
  empRowsP cfg g (parseDates cfg g) (rowIdxs cfg g) ""

/-- When no two qualifying rows share a slug and none collides with the
accumulator, every insertion is fresh, so the scan is a plain append of
slug-keyed entries: no re-keying and no overwriting happens. -/
theorem processRows_no_collision (cfg : Config) (g : Grid) (dates : List (Nat × Date)) :
    ∀ (rows : List Nat) (grp : String) (acc : List (String × Employee)),
    ((empRowsP cfg g dates rows grp).map (fun t => filenameOf t.1)).Nodup →
    (∀ t ∈ empRowsP cfg g dates rows grp, lookupA acc (filenameOf t.1) = none) →
    processRows cfg g dates rows grp acc =
      acc ++ (empRowsP cfg g dates rows grp).map
        (fun t => (filenameOf t.1, Employee.mk t.1 t.2.1 t.2.2))
  | [], grp, acc, _, _ => by simp [processRows, empRowsP]
  | r :: rs, grp, acc, hnd, hacc => by
    rcases hr : rowAction cfg g dates r with g' | _ | ⟨n, s⟩
    · have hnd' : ((empRowsP cfg g dates rs g').map (fun t => filenameOf t.1)).Nodup := by
        simpa [empRowsP, hr] using hnd
      have hacc' : ∀ t ∈ empRowsP cfg g dates rs g', lookupA acc (filenameOf t.1) = none := by
        intro t ht
        exact hacc t (by simpa [empRowsP, hr] using ht)
      simp only [processRows, hr, empRowsP]
      exact processRows_no_collision cfg g dates rs g' acc hnd' hacc'
    · have hnd' : ((empRowsP cfg g dates rs grp).map (fun t => filenameOf t.1)).Nodup := by
        simpa [empRowsP, hr] using hnd
      have hacc' : ∀ t ∈ empRowsP cfg g dates rs grp, lookupA acc (filenameOf t.1) = none := by
        intro t ht
        exact hacc t (by simpa [empRowsP, hr] using ht)
      simp only [processRows, hr, empRowsP]
      exact processRows_no_collision cfg g dates rs grp acc hnd' hacc'
    · have hrows : empRowsP cfg g dates (r :: rs) grp =
          (n, grp, s) :: empRowsP cfg g dates rs grp := by
        simp [empRowsP, hr]
      have hhead : lookupA acc (filenameOf n) = none := by
        have := hacc (n, grp, s) (by rw [hrows]; exact List.mem_cons_self _ _)
        simpa using this
      have hnd0 := hnd
      rw [hrows] at hnd0
      simp only [List.map_cons, List.nodup_cons] at hnd0
      have hins : insertA acc (filenameOf n) (Employee.mk n grp s) =
          acc ++ [(filenameOf n, Employee.mk n grp s)] :=
        insertA_of_lookup_none _ _ _ hhead
      have hacc' : ∀ t ∈ empRowsP cfg g dates rs grp,
          lookupA (acc ++ [(filenameOf n, Employee.mk n grp s)]) (filenameOf t.1) = none := by
        intro t ht
        have h1 : lookupA acc (filenameOf t.1) = none :=
          hacc t (by rw [hrows]; exact List.mem_cons_of_mem _ ht)
        rw [lookupA_append_left_none _ _ _ h1]
        have hne : filenameOf t.1 ≠ filenameOf n := by
          intro he
          exact hnd0.1 (he ▸ List.mem_map_of_mem (fun t => filenameOf t.1) ht)
        simp [lookupA, hne]
      have hrec := processRows_no_collision cfg g dates rs grp
        (acc ++ [(filenameOf n, Employee.mk n grp s)]) hnd0.2 hacc'
      simp only [processRows, hr, hhead, Option.isSome_none, Bool.false_eq_true,
        if_neg, hins]
      rw [if_neg (by simp [hhead])]
      rw [hrec, hrows]
      simp

/-- The row scan only ever inserts, so it preserves key uniqueness; in
particular every snapshot has pairwise-distinct identity keys. -/
theorem nodup_keysA_processRows (cfg : Config) (g : Grid) (dates : List (Nat × Date)) :
    ∀ (rows : List Nat) (grp : String) (acc : List (String × Employee)),
    (keysA acc).Nodup → (keysA (processRows cfg g dates rows grp acc)).Nodup
  | [], grp, acc, h => by simpa [processRows] using h
  | r :: rs, grp, acc, h => by
    rcases hr : rowAction cfg g dates r with g' | _ | ⟨n, s⟩
    · simp only [processRows, hr]
      exact nodup_keysA_processRows cfg g dates rs g' acc h
    · simp only [processRows, hr]
      exact nodup_keysA_processRows cfg g dates rs grp acc h
    · simp only [processRows, hr]
      by_cases hl : (lookupA acc (filenameOf n)).isSome
      · rw [if_pos hl]
        exact nodup_keysA_processRows cfg g dates rs grp _
          (nodup_keysA_insertA _ _ _ h)
      · rw [if_neg hl]
        exact nodup_keysA_processRows cfg g dates rs grp _
          (nodup_keysA_insertA _ _ _ h)

/-- Archiving never touches the persisted state file. -/
theorem archiveRemoved_stateFile (f : String) (now : Nat) (st : SyncState) (w : World) :
    (archiveRemovedEmployee f now st w).2.2.stateFile = w.stateFile := by
  unfold archiveRemovedEmployee
  cases lookupA w.outputFiles f <;> rfl

/-- The archive loop never touches the persisted state file. -/
theorem archiveLoop_stateFile (now : Nat) :
    ∀ (fs : List String) (st : SyncState) (w : World),
    (archiveLoop now fs st w).2.2.stateFile = w.stateFile
  | [], st, w => rfl
  | f :: fs, st, w => by
    have hpres := archiveRemoved_stateFile f now st w
    rcases ha : archiveRemovedEmployee f now st w with ⟨p, st', w'⟩
    rw [ha] at hpres
    cases p with
    | none =>
      simp only [archiveLoop, ha]
      exact (archiveLoop_stateFile now fs st' w').trans hpres
    | some a =>
      simp only [archiveLoop, ha]
      exact (archiveLoop_stateFile now fs st' w').trans hpres

/-- The generate/update loop writes only calendar files, never the
persisted state file. -/
theorem genLoop_stateFile (cfg : Config) (force : Bool) (now : Nat) (ex : List String) :
    ∀ (emps : List (String × Employee)) (st : SyncState) (w : World)
      (nl ul cl ws : List String),
    (genLoop cfg force now ex emps st w nl ul cl ws).1.stateFile = w.stateFile
  | [], st, w, nl, ul, cl, ws => rfl
  | (filename, emp) :: rest, st, w, nl, ul, cl, ws => by
    rcases hgen : generateCalendar cfg emp now with e | cal
    · simp [genLoop, hgen]
    · simp only [genLoop, hgen]
      split
    
      · exact genLoop_stateFile cfg force now ex rest _ _ _ _ _ _
      · exact genLoop_stateFile cfg force now ex rest _ _ _ _ _ _

/-- When every removed identity's active file exists (which is how the
orchestrator obtains them) and the list has no duplicates, each one is
archived and reported removed: the removed list equals the input list. -/
theorem archiveLoop_removed (now : Nat) :
    ∀ (fs : List String) (st : SyncState) (w : World),
    (∀ f ∈ fs, f ∈ keysA w.outputFiles) → fs.Nodup →
    (archiveLoop now fs st w).1 = fs
  | [], st, w, _, _ => rfl
  | f :: fs, st, w, hmem, hnd => by
    have hf : f ∈ keysA w.outputFiles := hmem f (List.mem_cons_self _ _)
    have hl : lookupA w.outputFiles f ≠ none := fun h0 =>
      ((lookupA_eq_none_iff _ _).mp h0) hf
    rcases hc : lookupA w.outputFiles f with _ | content
    · exact absurd hc hl
    · have ha : archiveRemovedEmployee f now st w =
          (some (dropRightStr f 4 ++ "_" ++ toString now ++ ".ics"),
           removeEmployeeHash st f,
           ⟨w.stateFile, eraseA w.outputFiles f,
            insertA w.archiveFiles (dropRightStr f 4 ++ "_" ++ toString now ++ ".ics")
              content, w.excel⟩) := by
        simp [archiveRemovedEmployee, hc]
      simp only [List.nodup_cons] at hnd
      have hmem' : ∀ g ∈ fs, g ∈ keysA
          (⟨w.stateFile, eraseA w.outputFiles f,
            insertA w.archiveFiles (dropRightStr f 4 ++ "_" ++ toString now ++ ".ics")
              content, w.excel⟩ : World).outputFiles := by
        intro g hg
        have hne : g ≠ f := fun he => hnd.1 (he ▸ hg)
        exact (keysA_eraseA_subset _ _ _ hne).mpr (hmem g (List.mem_cons_of_mem _ hg))
      simp only [archiveLoop, ha]
      rw [archiveLoop_removed now fs _ _ hmem' hnd.2]

/-- Counting lemma for the generate/update loop with `force = false`:
every current identity's key is appended to exactly one of the
new/updated/unchanged lists (and nothing else is appended). -/
theorem genLoop_count (cfg : Config) (now : Nat) (ex : List String) :
    ∀ (emps : List (String × Employee)) (st : SyncState) (w : World)
      (nl ul cl ws : List String)
      (L : List String × List String × List String),
    (genLoop cfg false now ex emps st w nl ul cl ws).2.2.2 = Except.ok L →
    ∀ k, (L.1 ++ L.2.1 ++ L.2.2).count k =
      (nl ++ ul ++ cl).count k + (keysA emps).count k
  | [], st, w, nl, ul, cl, ws, L, hok, k => by
    simp only [genLoop, Except.ok.injEq] at hok
    subst hok
    simp [keysA]
  | (filename, emp) :: rest, st, w, nl, ul, cl, ws, L, hok, k => by
    rcases hgen : generateCalendar cfg emp now with e | cal
    · rw [show genLoop cfg false now ex ((filename, emp) :: rest) st w nl ul cl ws
          = (w, st, ws, Except.error e) by simp [genLoop, hgen]] at hok
      simp at hok
    · have hkeys : (keysA ((filename, emp) :: rest)).count k =
          (keysA rest).count k + (if filename = k then 1 else 0) := by
        simp [keysA, List.count_cons]
      by_cases hnew : filename ∈ ex
      · rcases hch : checkCalendarChanged st filename
            (renderCalendar cal) with _ | _
        · have hstep : genLoop cfg false now ex ((filename, emp) :: rest) st w nl ul cl ws
              = genLoop cfg false now ex rest st w nl ul (cl ++ [filename]) ws := by
            simp [genLoop, hgen, hnew, hch]
          rw [hstep] at hok
          have := genLoop_count cfg now ex rest st w nl ul (cl ++ [filename]) ws L hok k
          rw [this, hkeys]
          by_cases hk : filename = k
          · subst hk
            simp only [List.count_append, List.count_singleton, beq_self_eq_true,
              if_pos, if_true]
            omega
          · simp only [List.count_append, List.count_singleton, beq_iff_eq,
              if_neg hk]
            omega
        · have hstep : genLoop cfg false now ex ((filename, emp) :: rest) st w nl ul cl ws
              = genLoop cfg false now ex rest
                  (updateCalendarHash st filename (renderCalendar cal))
                  ⟨w.stateFile, insertA w.outputFiles filename (renderCalendar cal),
                   w.archiveFiles, w.excel⟩
                  nl (ul ++ [filename]) cl (ws ++ [filename]) := by
            simp [genLoop, hgen, hnew, hch]
          rw [hstep] at hok
          have := genLoop_count cfg now ex rest _ _ nl (ul ++ [filename]) cl
            (ws ++ [filename]) L hok k
          rw [this, hkeys]
          by_cases hk : filename = k
          · subst hk
            simp only [List.count_append, List.count_singleton, beq_self_eq_true,
              if_pos, if_true]
            omega
          · simp only [List.count_append, List.count_singleton, beq_iff_eq,
              if_neg hk]
            omega
      · have hstep : genLoop cfg false now ex ((filename, emp) :: rest) st w nl ul cl ws
            = genLoop cfg false now ex rest
                (updateCalendarHash st filename (renderCalendar cal))
                ⟨w.stateFile, insertA w.outputFiles filename (renderCalendar cal),
                 w.archiveFiles, w.excel⟩
                (nl ++ [filename]) ul cl (ws ++ [filename]) := by
          simp [genLoop, hgen, hnew]
        rw [hstep] at hok
        have := genLoop_count cfg now ex rest _ _ (nl ++ [filename]) ul cl
          (ws ++ [filename]) L hok k
        rw [this, hkeys]
        by_cases hk : filename = k
        · subst hk
          simp only [List.count_append, List.count_singleton, beq_self_eq_true,
            if_pos, if_true]
          omega
        · simp only [List.count_append, List.count_singleton, beq_iff_eq,
            if_neg hk]
          omega

/-- A run that ends in an error left the filesystem exactly as the
generate/update loop left it; in particular `finalize` never ran. -/
theorem finishSync_error (curHash : String) (x : Bool) (now : Nat)
    (removedL : List String)
    (gl : World × SyncState × List String ×
      Except SyncErr (List String × List String × List String)) (e : SyncErr)
    (h : (finishSync curHash x now removedL gl).outcome = Except.error e) :
    (finishSync curHash x now removedL gl).world = gl.1 := by
  unfold finishSync at h ⊢
  rcases hgl : gl.2.2.2 with e' | lists
  · simp only [hgl]
  · rw [hgl] at h
    simp at h

/-- A successful run's report is assembled from the archive loop's removed
list and the generate/update loop's three lists. -/
theorem finishSync_ok (curHash : String) (x : Bool) (now : Nat)
    (removedL : List String)
    (gl : World × SyncState × List String ×
      Except SyncErr (List String × List String × List String))
    (rep : ChangeReport)
    (h : (finishSync curHash x now removedL gl).outcome = Except.ok rep) :
    ∃ lists, gl.2.2.2 = Except.ok lists ∧
      rep = ⟨lists.1, removedL, lists.2.1, lists.2.2, x, toString now⟩ := by
  unfold finishSync at h
  rcases hgl : gl.2.2.2 with e' | lists
  · rw [hgl] at h
    simp at h
  · rw [hgl] at h
    simp only [Except.ok.injEq] at h
    exact ⟨lists, rfl, h.symm⟩

/-- A successful parse is the row scan over the parsed header dates. -/
theorem parseExcelGrid_ok (cfg : Config) (g : Grid)
    (emps : List (String × Employee))
    (h : parseExcelGrid cfg g = Except.ok emps) :
    emps = processRows cfg g (parseDates cfg g) (rowIdxs cfg g) "" [] := by
  unfold parseExcelGrid at h
  by_cases hd : parseDates cfg g = []
  · rw [if_pos hd] at h
    simp at h
  · rw [if_neg hd] at h
    simp only [Except.ok.injEq] at h
    exact h.symm

/-! ## Concrete fixtures

A minimal configuration and worksheet used to evaluate the pipeline at
concrete inputs: one timed day shift `D`, one midnight-spanning night
shift `N`, one all-day code `V`, and a worksheet whose header row holds
one date and whose single employee row holds one `D` shift. -/

/-- Test configuration (structure positions 1/2/3/2/4 and the three-code
tables). -/
def cfgW : Config :=
  ⟨1, 2, 3, 2, 4,
   [("D", ⟨"Day", "08:00", "16:00", false⟩),
    ("N", ⟨"Night", "22:00", "06:00", true⟩)],
   [("V", ⟨"Vacation"⟩)], ["", " "], "Europe/Amsterdam", "W"⟩

/-- Test worksheet: date header 2025-01-06 in column 4, employee `Jo`
with shift code `D`. -/
def gridW : Grid :=
  ⟨fun r c =>
    if r = 1 ∧ c = 4 then Cell.date ⟨2025, 1, 6⟩
    else if r = 2 ∧ c = 3 then Cell.str "Jo"
    else if r = 2 ∧ c = 4 then Cell.str "D" else Cell.empty, 2, 4⟩

/-- The employee the test worksheet parses to. -/
def empJo : Employee := ⟨"Jo", "", [⟨⟨2025, 1, 6⟩, "D"⟩]⟩

/-- A fresh world: no state file, empty directories, source present. -/
def wSync0 : World := ⟨StateFileD.absent, [], [], some gridW⟩

/-- First orchestrator run on the fresh world, at time 100. -/
def c2run1 : RunResult := runSync cfgW false 100 wSync0

/-- Second orchestrator run, immediately after, at time 200, source file
unchanged, `force = false`. -/
def c2run2 : RunResult := runSync cfgW false 200 c2run1.world

/-- The day shift of 2025-01-06. -/
def sJD : ShiftEntry := ⟨⟨2025, 1, 6⟩, "D"⟩

/-- C1: the spec claims `CalendarBuilder.build` is a pure function of the
employee's shifts and the configuration, with byte-identical serialized
output across repeated calls and no dependence on the wall-clock time of
the run. The code (`_create_timed_event` line 155, `_create_allday_event`
line 181) adds `DTSTAMP = datetime.now(self.tz)` to every event, so the
serialized document embeds the generation instant: building the same
employee with the same configuration at times 100 and 200 succeeds both
times but yields different serialized bytes. This defeats the hash-based
change detection the spec says the determinism exists for, so the claim
is recorded as a code bug and this theorem evaluates the code at the
failing input. -/
theorem c1_dtstamp_defeats_determinism :
    ((generateCalendar cfgW empJo 100).toOption.map renderCalendar).isSome = true ∧
    (generateCalendar cfgW empJo 100).toOption.map renderCalendar ≠
      (generateCalendar cfgW empJo 200).toOption.map renderCalendar := by
  decide

/-- C2: the spec claims a second run with an unchanged source file and
`force = false` writes zero files and reports every identity unchanged.
Because every generated document embeds `DTSTAMP = datetime.now`, the
second run's candidate bytes hash differently from the stored hash, so
`run_sync` rewrites every calendar and reports every identity as updated:
the second run (source unchanged — the report itself says so) writes
`jo.ics` and classifies `jo.ics` as updated with the unchanged list
empty. Recorded as a code bug with this evaluation at the failing
input. -/
theorem c2_second_run_rewrites_everything :
    c2run1.outcome.toOption.isSome = true ∧
    c2run2.writes = ["jo.ics"] ∧
    c2run2.outcome.toOption.map (fun r =>
      (r.excelFileChanged, r.newEmployees, r.removedEmployees,
       r.updatedEmployees, r.unchangedEmployees)) =
      some (false, [], [], ["jo.ics"], []) := by
  decide

/-- Any event the builder emits carries the UID `_generate_uid` derives
from the employee's display name and the shift's date and code. -/
theorem uid_of_createEvent (cfg : Config) (n : String) (now : Nat)
    (s : ShiftEntry) (ev : VEvent)
    (h : createEvent cfg n now s = Except.ok (some ev)) :
    ev.uid = generateUid n s := by
  unfold createEvent createTimedEvent at h
  dsimp only [] at h
  split at h
  · split at h
    · simp [Except.map] at h
    · split at h
      · simp [Except.map] at h
      · simp only [Except.map, Except.ok.injEq, Option.some.injEq] at h
        subst h
        rfl
  · split at h
    · simp only [Except.ok.injEq, Option.some.injEq] at h
      subst h
      rfl
    · simp at h

/-- C3 counterexample: the claim says the event identifier is a function
of exactly `(identity key, date, code)`. The code hashes the display
name (`raw_id = f"{employee_name}-..."`), which the identity key does not
determine: `"Jane Doe"` and `"JANE DOE"` normalize to the same identity
key yet produce different identifiers for the same date and code. -/
theorem c3_uid_not_function_of_identity_key :
    filenameOf "Jane Doe" = filenameOf "JANE DOE" ∧
    generateUid "Jane Doe" sJD ≠ generateUid "JANE DOE" sJD := by
  decide

/-- C3 amended: the event identifier is a deterministic function of
exactly `(employee display name, shift date, shift code)`: any two
emitted events for the same name and shift — whatever the configuration,
generation time or surrounding shifts — carry identical identifiers,
namely `_generate_uid`'s value. -/
theorem c3_uid_function_of_name_date_code (cfg cfg' : Config) (n : String)
    (now now' : Nat) (s : ShiftEntry) (ev ev' : VEvent)
    (h : createEvent cfg n now s = Except.ok (some ev))
    (h' : createEvent cfg' n now' s = Except.ok (some ev')) :
    ev.uid = generateUid n s ∧ ev'.uid = generateUid n s ∧ ev.uid = ev'.uid := by
  have h1 := uid_of_createEvent cfg n now s ev h
  have h2 := uid_of_createEvent cfg' n now' s ev' h'
  exact ⟨h1, h2, h1.trans h2.symm⟩

/-- Witness for the C3 amended theorem at the day shift, two different
generation times. -/
theorem c3_uid_function_of_name_date_code_witness :
    (⟨"Day", EventTime.timed ⟨2025, 1, 6⟩ 8 0, EventTime.timed ⟨2025, 1, 6⟩ 16 0,
      1, generateUid "Jo" sJD, "Shift code: D"⟩ : VEvent).uid = generateUid "Jo" sJD ∧
    (⟨"Day", EventTime.timed ⟨2025, 1, 6⟩ 8 0, EventTime.timed ⟨2025, 1, 6⟩ 16 0,
      2, generateUid "Jo" sJD, "Shift code: D"⟩ : VEvent).uid = generateUid "Jo" sJD ∧
    (⟨"Day", EventTime.timed ⟨2025, 1, 6⟩ 8 0, EventTime.timed ⟨2025, 1, 6⟩ 16 0,
      1, generateUid "Jo" sJD, "Shift code: D"⟩ : VEvent).uid =
    (⟨"Day", EventTime.timed ⟨2025, 1, 6⟩ 8 0, EventTime.timed ⟨2025, 1, 6⟩ 16 0,
      2, generateUid "Jo" sJD, "Shift code: D"⟩ : VEvent).uid :=
  c3_uid_function_of_name_date_code cfgW cfgW "Jo" 1 2 sJD _ _ (by rfl) (by rfl)

/-- Worksheet with the single employee row `Jane Doe`. -/
def gridA : Grid :=
  ⟨fun r c =>
    if r = 1 ∧ c = 4 then Cell.date ⟨2025, 1, 6⟩
    else if r = 2 ∧ c = 3 then Cell.str "Jane Doe"
    else if r = 2 ∧ c = 4 then Cell.str "D" else Cell.empty, 2, 4⟩

/-- Worksheet with `Bo` before `Jane Doe` (distinct slugs). -/
def gridA2 : Grid :=
  ⟨fun r c =>
    if r = 1 ∧ c = 4 then Cell.date ⟨2025, 1, 6⟩
    else if r = 2 ∧ c = 3 then Cell.str "Bo"
    else if r = 2 ∧ c = 4 then Cell.str "D"
    else if r = 3 ∧ c = 3 then Cell.str "Jane Doe"
    else if r = 3 ∧ c = 4 then Cell.str "D" else Cell.empty, 3, 4⟩

/-- Worksheet with `JANE DOE` before `Jane Doe`: both rows normalize to
the slug `jane_doe`. -/
def gridB : Grid :=
  ⟨fun r c =>
    if r = 1 ∧ c = 4 then Cell.date ⟨2025, 1, 6⟩
    else if r = 2 ∧ c = 3 then Cell.str "JANE DOE"
    else if r = 2 ∧ c = 4 then Cell.str "D"
    else if r = 3 ∧ c = 3 then Cell.str "Jane Doe"
    else if r = 3 ∧ c = 4 then Cell.str "D" else Cell.empty, 3, 4⟩

/-- Worksheet with a `PLOEG A` group header followed by three employee
rows all named `Ann` (same slug, same group), with shifts `D`, `N`, `V`
respectively. -/
def gridC : Grid :=
  ⟨fun r c =>
    if r = 1 ∧ c = 4 then Cell.date ⟨2025, 1, 6⟩
    else if r = 2 ∧ c = 2 then Cell.str "PLOEG A"
    else if r = 3 ∧ c = 3 then Cell.str "Ann"
    else if r = 3 ∧ c = 4 then Cell.str "D"
    else if r = 4 ∧ c = 3 then Cell.str "Ann"
    else if r = 4 ∧ c = 4 then Cell.str "N"
    else if r = 5 ∧ c = 3 then Cell.str "Ann"
    else if r = 5 ∧ c = 4 then Cell.str "V" else Cell.empty, 5, 4⟩

/-- C6 counterexample: the claim says the identity key assigned to a
person is stable across re-parses whenever that person's name and group
are unchanged, regardless of the other rows. In `gridA` the person
`("Jane Doe", "")` is keyed `jane_doe.ics`; in `gridB` the same person —
same name, same group — is preceded by a row `JANE DOE` with the same
slug, so the duplicate-collision rule re-keys them to `jane_doe_.ics`
(and annotates the display name): the key depends on the other rows. -/
theorem c6_other_rows_change_the_key :
    parseEmployeesG cfgW gridA =
      [("jane_doe.ics", ⟨"Jane Doe", "", [sJD]⟩)] ∧
    parseEmployeesG cfgW gridB =
      [("jane_doe.ics", ⟨"JANE DOE", "", [sJD]⟩),
       ("jane_doe_.ics", ⟨"Jane Doe ()", "", [sJD]⟩)] ∧
    ("jane_doe.ics" : String) ≠ "jane_doe_.ics" := by
  decide

/-- C6 amended: the identity key is stable across re-parses as long as
the employee's name and group are unchanged AND no two employee rows with
recognized shifts normalize to the same slug in either parse: under that
no-collision condition the person is keyed `filenameOf name` in both
snapshots, regardless of the other rows or of row order. (With colliding
slugs the key of a later occurrence additionally depends on occurrence
order and on that occurrence's group, as the counterexample shows.) -/
theorem c6_key_stable_without_slug_collisions (cfg : Config) (g1 g2 : Grid)
    (name grp : String) (s1 s2 : List ShiftEntry)
    (h1 : ((empRowsG cfg g1).map (fun t => filenameOf t.1)).Nodup)
    (h2 : ((empRowsG cfg g2).map (fun t => filenameOf t.1)).Nodup)
    (hm1 : (name, grp, s1) ∈ empRowsG cfg g1)
    (hm2 : (name, grp, s2) ∈ empRowsG cfg g2) :
    (filenameOf name, Employee.mk name grp s1) ∈ parseEmployeesG cfg g1 ∧
    (filenameOf name, Employee.mk name grp s2) ∈ parseEmployeesG cfg g2 := by
  constructor
  · unfold parseEmployeesG
    rw [processRows_no_collision cfg g1 (parseDates cfg g1) (rowIdxs cfg g1) "" []
      h1 (fun t _ => rfl)]
    simpa using List.mem_map_of_mem
      (fun t => (filenameOf t.1, Employee.mk t.1 t.2.1 t.2.2)) hm1
  · unfold parseEmployeesG
    rw [processRows_no_collision cfg g2 (parseDates cfg g2) (rowIdxs cfg g2) "" []
      h2 (fun t _ => rfl)]
    simpa using List.mem_map_of_mem
      (fun t => (filenameOf t.1, Employee.mk t.1 t.2.1 t.2.2)) hm2

/-- Witness for the C6 amended theorem: `Jane Doe` keeps the key
`jane_doe.ics` in two different parses (alone, and after `Bo`). -/
theorem c6_key_stable_without_slug_collisions_witness :
    (filenameOf "Jane Doe", Employee.mk "Jane Doe" "" [sJD]) ∈
      parseEmployeesG cfgW gridA ∧
    (filenameOf "Jane Doe", Employee.mk "Jane Doe" "" [sJD]) ∈
      parseEmployeesG cfgW gridA2 :=
  c6_key_stable_without_slug_collisions cfgW gridA gridA2 "Jane Doe" "" [sJD] [sJD]
    (by decide) (by decide) (by decide) (by decide)

/-- C7: a shift whose code maps to a timed definition becomes an event
that starts at the configured start time on the shift's date and ends at
the configured end time on the same date, the end moving to the next day
exactly when `spans_midnight` is set; a shift whose code maps to an
all-day definition becomes a whole-day event from the shift's date to the
following day (exclusive end). -/
theorem c7_event_boundaries (cfg : Config) (n : String) (now : Nat)
    (s : ShiftEntry) (tc : TimedShiftCfg) (ac : AllDayCfg) (st en : Nat × Nat) :
    (lookupA cfg.timedShifts (toUpperStr s.code) = some tc →
     parseHM tc.start = some st → parseHM tc.stop = some en →
     createEvent cfg n now s = Except.ok (some
       ⟨tc.name, EventTime.timed s.date st.1 st.2,
        EventTime.timed (if tc.spansMidnight then nextDay s.date else s.date)
          en.1 en.2,
        now, generateUid n s, "Shift code: " ++ s.code⟩)) ∧
    (lookupA cfg.timedShifts (toUpperStr s.code) = none →
     lookupA cfg.alldayEvents (toUpperStr s.code) = some ac →
     createEvent cfg n now s = Except.ok (some
       ⟨ac.name, EventTime.allday s.date, EventTime.allday (nextDay s.date),
        now, generateUid n s, "Code: " ++ s.code⟩)) := by
  constructor
  · intro hl hs he
    unfold createEvent createTimedEvent
    dsimp only []
    simp only [hl, hs, he]
    rfl
  · intro hl ha
    unfold createEvent
    dsimp only []
    simp only [hl, ha]
    rfl

/-- Witness for C7: the midnight-spanning night shift ends 06:00 the next
day, and the all-day code `V` spans exactly 2025-01-06 with exclusive end
2025-01-07. -/
theorem c7_event_boundaries_witness :
    createEvent cfgW "Jo" 7 ⟨⟨2025, 1, 6⟩, "N"⟩ = Except.ok (some
      ⟨"Night", EventTime.timed ⟨2025, 1, 6⟩ 22 0, EventTime.timed ⟨2025, 1, 7⟩ 6 0,
       7, generateUid "Jo" ⟨⟨2025, 1, 6⟩, "N"⟩, "Shift code: N"⟩) ∧
    createEvent cfgW "Jo" 7 ⟨⟨2025, 1, 6⟩, "V"⟩ = Except.ok (some
      ⟨"Vacation", EventTime.allday ⟨2025, 1, 6⟩, EventTime.allday ⟨2025, 1, 7⟩,
       7, generateUid "Jo" ⟨⟨2025, 1, 6⟩, "V"⟩, "Code: V"⟩) :=
  ⟨((c7_event_boundaries cfgW "Jo" 7 ⟨⟨2025, 1, 6⟩, "N"⟩
      ⟨"Night", "22:00", "06:00", true⟩ ⟨"Vacation"⟩ (22, 0) (6, 0)).1
      (by rfl) (by rfl) (by rfl)).trans (by rfl),
   ((c7_event_boundaries cfgW "Jo" 7 ⟨⟨2025, 1, 6⟩, "V"⟩
      ⟨"Night", "22:00", "06:00", true⟩ ⟨"Vacation"⟩ (22, 0) (6, 0)).2
      (by rfl) (by rfl)).trans (by rfl)⟩

/-- C9: archiving a removed identity is a no-op returning none when the
active file does not exist; otherwise the file moves to the archive
directory under the timestamp-suffixed name with its byte content
preserved, the active file no longer exists, and the stored per-employee
hash for that key is dropped. (The existence-dependent conjunct assumes
the directory and state listings have unique keys, which a real
filesystem and a JSON object guarantee.) -/
theorem c9_archive_semantics (fn : String) (now : Nat) (st : SyncState) (w : World) :
    (lookupA w.outputFiles fn = none →
      archiveRemovedEmployee fn now st w = (none, st, w)) ∧
    (∀ content, lookupA w.outputFiles fn = some content →
      (keysA w.outputFiles).Nodup → (keysA st.employeeHashes).Nodup →
      (archiveRemovedEmployee fn now st w).1 =
        some (dropRightStr fn 4 ++ "_" ++ toString now ++ ".ics") ∧
      lookupA (archiveRemovedEmployee fn now st w).2.2.archiveFiles
        (dropRightStr fn 4 ++ "_" ++ toString now ++ ".ics") = some content ∧
      lookupA (archiveRemovedEmployee fn now st w).2.2.outputFiles fn = none ∧
      lookupA (archiveRemovedEmployee fn now st w).2.1.employeeHashes fn = none) := by
  constructor
  · intro h
    simp [archiveRemovedEmployee, h]
  · intro content h hndO hndH
    refine ⟨?_, ?_, ?_, ?_⟩
    · simp [archiveRemovedEmployee, h]
    · simp [archiveRemovedEmployee, h, lookupA_insertA_self]
    · simp [archiveRemovedEmployee, h, lookupA_eraseA_self _ _ hndO]
    · simp [archiveRemovedEmployee, h, removeEmployeeHash,
        lookupA_eraseA_self _ _ hndH]

/-- World fixture for the C9 witness: one active calendar `ann.ics` with
stored hash. -/
def wArch : World :=
  ⟨StateFileD.good ⟨none, [("ann.ics", "H1")], none⟩,
   [("ann.ics", "DATA")], [], none⟩

/-- State fixture for the C9 witness. -/
def stArch : SyncState := ⟨none, [("ann.ics", "H1")], none⟩

/-- Witness for C9: both conjuncts at concrete inputs — archiving a
missing `bo.ics` is a no-op, archiving the present `ann.ics` moves its
bytes and drops its hash. -/
theorem c9_archive_semantics_witness :
    archiveRemovedEmployee "bo.ics" 5 stArch wArch = (none, stArch, wArch) ∧
    ((archiveRemovedEmployee "ann.ics" 5 stArch wArch).1 =
       some (dropRightStr "ann.ics" 4 ++ "_" ++ toString 5 ++ ".ics") ∧
     lookupA (archiveRemovedEmployee "ann.ics" 5 stArch wArch).2.2.archiveFiles
       (dropRightStr "ann.ics" 4 ++ "_" ++ toString 5 ++ ".ics") = some "DATA" ∧
     lookupA (archiveRemovedEmployee "ann.ics" 5 stArch wArch).2.2.outputFiles
       "ann.ics" = none ∧
     lookupA (archiveRemovedEmployee "ann.ics" 5 stArch wArch).2.1.employeeHashes
       "ann.ics" = none) :=
  ⟨(c9_archive_semantics "bo.ics" 5 stArch wArch).1 (by decide),
   (c9_archive_semantics "ann.ics" 5 stArch wArch).2 "DATA"
     (by decide) (by decide) (by decide)⟩

/-- C10: with three employees of the same slug and group (rows `Ann`,
`Ann`, `Ann` under `PLOEG A`), the duplicate re-keying uses only the
later occurrence's group and is applied once: the second and third rows
both re-key to `ann_ploeg_a.ics`, the third silently overwrites the
second (the surviving entry carries the third row's `V` shift, the second
row's `N` shift is gone), and the snapshot has two entries for three
employee rows with recognized shifts. -/
theorem c10_triple_collision_overwrites :
    parseEmployeesG cfgW gridC =
      [("ann.ics", ⟨"Ann", "PLOEG A", [⟨⟨2025, 1, 6⟩, "D"⟩]⟩),
       ("ann_ploeg_a.ics", ⟨"Ann (PLOEG A)", "PLOEG A", [⟨⟨2025, 1, 6⟩, "V"⟩]⟩)] ∧
    empRowsG cfgW gridC =
      [("Ann", "PLOEG A", [⟨⟨2025, 1, 6⟩, "D"⟩]),
       ("Ann", "PLOEG A", [⟨⟨2025, 1, 6⟩, "N"⟩]),
       ("Ann", "PLOEG A", [⟨⟨2025, 1, 6⟩, "V"⟩])] ∧
    (parseEmployeesG cfgW gridC).length < (empRowsG cfgW gridC).length := by
  decide

/-- C5: the persisted state file is written only by `finalize_sync`, which
runs only after the whole run completed without a fatal error: every run
that ends in an error leaves the on-disk state file — source hash,
per-employee hashes and last-sync timestamp — exactly as it was at run
start, whatever archives or calendar writes already happened. -/
theorem c5_state_file_untouched_on_error (cfg : Config) (force : Bool)
    (now : Nat) (w : World) (e : SyncErr)
    (h : (runSync cfg force now w).outcome = Except.error e) :
    (runSync cfg force now w).world.stateFile = w.stateFile := by
  unfold runSync at h ⊢
  rcases hex : w.excel with _ | g
  · simp only [hex]
  · simp only [hex] at h ⊢
    rcases hp : parseExcelGrid cfg g with pe | emps
    · simp only [hp] at h ⊢
    · simp only [hp] at h ⊢
      unfold runSyncParsed at h ⊢
      dsimp only [] at h ⊢
      rw [finishSync_error _ _ _ _ _ _ h]
      rw [genLoop_stateFile]
      rw [archiveLoop_stateFile]

/-- World fixture for the C5 witness: a populated state file but no
source spreadsheet on disk, so the run aborts with `excelNotFound`. -/
def wNoExcel : World :=
  ⟨StateFileD.good ⟨some "h0", [("ann.ics", "H1")], some "t0"⟩, [], [], none⟩

/-- Witness for C5: the aborted run (missing source file) leaves the
state file exactly as loaded. -/
theorem c5_state_file_untouched_on_error_witness :
    (runSync cfgW false 3 wNoExcel).outcome = Except.error SyncErr.excelNotFound ∧
    (runSync cfgW false 3 wNoExcel).world.stateFile = wNoExcel.stateFile :=
  ⟨by rfl,
   c5_state_file_untouched_on_error cfgW false 3 wNoExcel SyncErr.excelNotFound
     (by rfl)⟩

/-- C8: parsing fails with the not-found error exactly when the
spreadsheet path does not exist; it fails with the malformed-input error
exactly when no scanned header cell can be interpreted as a date; a
header column that fails every interpretation is merely skipped, and
whenever some scanned header cell parses, parsing returns a snapshot. -/
theorem c8_parse_error_conditions (cfg : Config) (file : Option Grid) :
    (parseExcelFile cfg file = Except.error SyncErr.excelNotFound ↔ file = none) ∧
    (parseExcelFile cfg file = Except.error SyncErr.noDates ↔
      ∃ g, file = some g ∧
        ∀ c ∈ colRange cfg g, parseDateCell (g.cell cfg.dateRow c) = none) ∧
    ((∃ snap, parseExcelFile cfg file = Except.ok snap) ↔
      ∃ g, file = some g ∧
        ∃ c ∈ colRange cfg g, parseDateCell (g.cell cfg.dateRow c) ≠ none) := by
  rcases file with _ | g
  · refine ⟨by simp [parseExcelFile], by simp [parseExcelFile], by simp [parseExcelFile]⟩
  · have hpd : parseDates cfg g = [] ↔
        ∀ c ∈ colRange cfg g, parseDateCell (g.cell cfg.dateRow c) = none := by
      unfold parseDates
      rw [List.filterMap_eq_nil_iff]
      constructor
      · intro h c hc
        simpa using h c hc
      · intro h c hc
        simp [h c hc]
    by_cases hd : parseDates cfg g = []
    · refine ⟨by simp [parseExcelFile, parseExcelGrid, hd], ?_, ?_⟩
      · simp only [parseExcelFile, parseExcelGrid, hd, if_pos]
        constructor
        · intro _
          exact ⟨g, rfl, hpd.mp hd⟩
        · intro _
          trivial
      · simp only [parseExcelFile, parseExcelGrid, hd, if_pos]
        constructor
        · rintro ⟨snap, hsnap⟩
          simp at hsnap
        · rintro ⟨g', hg', c, hc, hne⟩
          obtain rfl : g = g' := by injection hg'
          exact absurd (hpd.mp hd c hc) hne
    · refine ⟨by simp [parseExcelFile, parseExcelGrid, hd], ?_, ?_⟩
      · constructor
        · intro hcontra
          simp [parseExcelFile, parseExcelGrid, hd] at hcontra
        · rintro ⟨g', hg', hall⟩
          obtain rfl : g = g' := by injection hg'
          exact absurd (hpd.mpr hall) hd
      · constructor
        · intro _
          have hnall : ¬ ∀ c ∈ colRange cfg g,
              parseDateCell (g.cell cfg.dateRow c) = none :=
            fun hall => hd (hpd.mpr hall)
          push_neg at hnall
          obtain ⟨c, hc, hne⟩ := hnall
          exact ⟨g, rfl, c, hc, hne⟩
        · intro _
          exact ⟨processRows cfg g (parseDates cfg g) (rowIdxs cfg g) "" [],
            by simp [parseExcelFile, parseExcelGrid, hd]⟩

/-- Forced re-run on the world the first run produced, at the same
second-resolution instant, so the regenerated bytes match the stored
hash. -/
def c4run : RunResult := runSync cfgW true 100 c2run1.world

/-- C4 counterexample: the claim says that in every run — including runs
with `force = true` — each identity in the previous output set or the
current snapshot lands in exactly one of the report's four lists. In a
forced run, an identity that is neither new nor changed takes the write
branch but the `updated` append is guarded by `has_changed` and the
`unchanged` append sits on the unforced branch, so the identity appears
in none of the lists: here `jo.ics` is in the previous output set (and in
the current snapshot), the forced run rewrites it, and all four report
lists are empty. -/
theorem c4_force_unchanged_unclassified :
    ("jo.ics" ∈ existingIcs c2run1.world) ∧
    c4run.writes = ["jo.ics"] ∧
    c4run.outcome.toOption.map (fun r =>
      (r.newEmployees, r.removedEmployees, r.updatedEmployees,
       r.unchangedEmployees)) = some ([], [], [], []) := by
  decide

/-- C4 amended: in every successful run with `force = false`, each
identity key present in the previous output set (the `.ics` files on
disk) or in the current snapshot appears in exactly one of the report's
four lists, and no other key appears at all. (With `force = true` an
identity that is neither new nor changed is written but appears in no
list, as the counterexample shows.) -/
theorem c4_partition_without_force (cfg : Config) (now : Nat) (w : World)
    (g : Grid) (emps : List (String × Employee)) (rep : ChangeReport) (k : String)
    (hex : w.excel = some g)
    (hparse : parseExcelGrid cfg g = Except.ok emps)
    (hnd : (keysA w.outputFiles).Nodup)
    (hok : (runSync cfg false now w).outcome = Except.ok rep) :
    (rep.newEmployees ++ rep.removedEmployees ++ rep.updatedEmployees ++
      rep.unchangedEmployees).count k =
      if k ∈ existingIcs w ∨ k ∈ keysA emps then 1 else 0 := by
  unfold runSync at hok
  simp only [hex, hparse] at hok
  unfold runSyncParsed at hok
  dsimp only [] at hok
  obtain ⟨lists, hgl, hrep⟩ := finishSync_ok _ _ _ _ _ _ hok
  subst hrep
  dsimp only []
  have hndEx : (existingIcs w).Nodup := hnd.filter _
  have hndRem : ((existingIcs w).filter fun f => ¬ f ∈ keysA emps).Nodup :=
    hndEx.filter _
  have hremEq : (archiveLoop now
      ((existingIcs w).filter fun f => ¬ f ∈ keysA emps)
      (loadState w.stateFile) w).1 =
      (existingIcs w).filter fun f => ¬ f ∈ keysA emps := by
    refine archiveLoop_removed now _ _ _ (fun f hf => ?_) hndRem
    have hf1 : f ∈ existingIcs w := (List.mem_filter.mp hf).1
    exact (List.mem_filter.mp hf1).1
  have hcnt := genLoop_count cfg now (existingIcs w) emps _ _ [] [] [] []
    lists hgl k
  simp only [List.append_nil, List.count_nil] at hcnt
  have hndEmps : (keysA emps).Nodup := by
    rw [parseExcelGrid_ok cfg g emps hparse]
    exact nodup_keysA_processRows cfg g _ _ _ [] (by simp [keysA])
  have hckeys : (keysA emps).count k = if k ∈ keysA emps then 1 else 0 := by
    by_cases hk : k ∈ keysA emps
    · simp [hk, List.count_eq_one_of_mem hndEmps hk]
    · simp [hk, List.count_eq_zero_of_not_mem hk]
  have hcrem : ((existingIcs w).filter fun f => ¬ f ∈ keysA emps).count k =
      if k ∈ existingIcs w ∧ ¬ k ∈ keysA emps then 1 else 0 := by
    by_cases hk : k ∈ (existingIcs w).filter fun f => ¬ f ∈ keysA emps
    · have hk' := List.mem_filter.mp hk
      simp only [decide_eq_true_eq] at hk'
      rw [List.count_eq_one_of_mem hndRem hk, if_pos hk']
    · rw [List.count_eq_zero_of_not_mem hk]
      have : ¬ (k ∈ existingIcs w ∧ ¬ k ∈ keysA emps) := by
        intro hcon
        exact hk (List.mem_filter.mpr ⟨hcon.1, by simpa using hcon.2⟩)
      rw [if_neg this]
  rw [hremEq]
  simp only [List.count_append] at hcnt ⊢
  rw [hcrem]
  by_cases h1 : k ∈ keysA emps <;> by_cases h2 : k ∈ existingIcs w <;>
    simp only [h1, h2, if_pos, if_neg, not_true, not_false_iff, and_true,
      and_false, true_or, or_true, false_or, or_false, true_and, false_and,
      if_true, if_false] <;>
    rw [hckeys] at hcnt <;> simp [h1] at hcnt <;> omega

/-- Witness for the C4 amended theorem: on a fresh run the single
identity `jo.ics` (current snapshot only) is counted exactly once across
the four report lists. -/
theorem c4_partition_without_force_witness :
    ((⟨["jo.ics"], [], [], [], true, "5"⟩ : ChangeReport).newEmployees ++
     (⟨["jo.ics"], [], [], [], true, "5"⟩ : ChangeReport).removedEmployees ++
     (⟨["jo.ics"], [], [], [], true, "5"⟩ : ChangeReport).updatedEmployees ++
     (⟨["jo.ics"], [], [], [], true, "5"⟩ : ChangeReport).unchangedEmployees).count
        "jo.ics" =
      if "jo.ics" ∈ existingIcs wSync0 ∨ "jo.ics" ∈ keysA [("jo.ics", empJo)]
      then 1 else 0 :=
  c4_partition_without_force cfgW 5 wSync0 gridW [("jo.ics", empJo)]
    ⟨["jo.ics"], [], [], [], true, "5"⟩ "jo.ics" (by rfl) (by rfl)
    (by decide) (by rfl)
